import Mathlib

/-!
Verification development for the wayfair-mcp-server repository.

The repository contains several near-duplicate Python servers; the claims
target:
* `src/wayfair_render_optimized.py` — scraper with static fallback catalog,
  filter pipeline (`WayfairRenderScraper`, `WayfairMCPServer.search_products`);
* `src/wayfair_scraper_mcp.py` — scraper with a 5-minute TTL result cache
  (`WayfairMCPServer.search_products`);
* `src/wayfair_mcp_server.py` — catalog server with product comparison
  (`compare_products`, `_generate_comparison_summary`);
* `src/wayfair_improved_scraper.py` — a second `_extract_price` variant.

Python floats are modelled as rationals (ℚ), timestamps as naturals,
Python dicts keyed by strings as association lists, and Python exceptions
as `Except PyError`.
-/

namespace Wayfair

/-- Python exceptions that the modelled code paths can raise:
`TypeError` (comparing `None` with a float), `ZeroDivisionError`
(dividing by a zero rating), and the `HTTPException(404)` raised by
`compare_products`. -/
inductive PyError where
  | typeError : PyError
  | zeroDivisionError : PyError
  | httpNotFound : PyError
deriving DecidableEq, Repr

/-- The normalized product record, as built by the scrapers in
`wayfair_render_optimized.py`.  A field of type `Option` models a dict
entry whose value may be Python `None`; every dict produced by this code
has all of these keys present.  `scraped` models `d.get('scraped', False)`:
it is `true` exactly for dicts carrying `"scraped": True` (live extraction)
and `false` for fallback-catalog dicts, which lack the key. -/
structure Product where
  id : String
  name : String
  price : Option ℚ
  originalPrice : Option ℚ
  discountPercentage : Option ℤ
  rating : Option ℚ
  reviewCount : Option ℕ
  availability : String
  url : String
  imageUrl : String
  description : String
  scraped : Bool
deriving DecidableEq, Repr

/-- Whether `needle` starts `hay` (character lists). -/
def charsStart : List Char → List Char → Bool
  | [], _ => true
  | _ :: _, [] => false
  | a :: as, b :: bs => a = b && charsStart as bs

/-- Whether `needle` occurs contiguously inside `hay`; models Python's
`needle in hay` on strings. -/
def occursIn (needle : List Char) : List Char → Bool
  | [] => charsStart needle []
  | c :: rest => charsStart needle (c :: rest) || occursIn needle rest

/-- The `FALLBACK_PRODUCTS["sofa"]` list of `wayfair_render_optimized.py`
(lines 50–77). -/
def fallbackSofa : List Product :=
  [ { id := "WF_SOFA_001", name := "Modern L-Shaped Sectional Sofa",
      price := some (89999/100), originalPrice := some (129999/100),
      discountPercentage := some 31, rating := some (46/10),
      reviewCount := some 1247, availability := "In Stock",
      url := "https://www.wayfair.com/furniture/pdp/modern-l-shaped-sectional-sofa",
      imageUrl := "https://images.wayfair.com/sofa-1.jpg",
      description := "Contemporary L-shaped sectional with premium fabric upholstery",
      scraped := false },
    { id := "WF_SOFA_002", name := "Comfortable 3-Seater Sofa",
      price := some (59999/100), originalPrice := some (79999/100),
      discountPercentage := some 25, rating := some (44/10),
      reviewCount := some 892, availability := "In Stock",
      url := "https://www.wayfair.com/furniture/pdp/comfortable-3-seater-sofa",
      imageUrl := "https://images.wayfair.com/sofa-2.jpg",
      description := "Plush 3-seater sofa perfect for living rooms",
      scraped := false } ]

/-- The `FALLBACK_PRODUCTS["bed"]` list (lines 78–92). -/
def fallbackBed : List Product :=
  [ { id := "WF_BED_001", name := "Queen Platform Bed Frame",
      price := some (29999/100), originalPrice := some (39999/100),
      discountPercentage := some 25, rating := some (44/10),
      reviewCount := some 892, availability := "In Stock",
      url := "https://www.wayfair.com/furniture/pdp/queen-platform-bed-frame",
      imageUrl := "https://images.wayfair.com/bed-1.jpg",
      description := "Sleek platform bed frame with upholstered headboard",
      scraped := false } ]

/-- The `FALLBACK_PRODUCTS["dining"]` list (lines 93–107). -/
def fallbackDining : List Product :=
  [ { id := "WF_DINING_001", name := "Dining Table Set for 6",
      price := some (59999/100), originalPrice := some (79999/100),
      discountPercentage := some 25, rating := some (45/10),
      reviewCount := some 423, availability := "In Stock",
      url := "https://www.wayfair.com/furniture/pdp/dining-table-set-for-6",
      imageUrl := "https://images.wayfair.com/dining-1.jpg",
      description := "Complete dining set includes table and 6 chairs",
      scraped := false } ]

/-- `FALLBACK_PRODUCTS.get(category, FALLBACK_PRODUCTS['sofa'])`. -/
def fallbackProductsFor (category : String) : List Product :=
  if category = "sofa" then fallbackSofa
  else if category = "bed" then fallbackBed
  else if category = "dining" then fallbackDining
  else fallbackSofa

/-- Category resolution of `WayfairRenderScraper._get_fallback_products`
(lines 296–306): keyword-in-query tests, in order, defaulting to `sofa`. -/
def resolveCategory (query : String) : String :=
  let q := query.toLower.data
  if ["sofa", "couch", "sectional"].any (fun t => occursIn t.data q) then "sofa"
  else if ["bed", "bedroom", "mattress"].any (fun t => occursIn t.data q) then "bed"
  else if ["dining", "table", "chair"].any (fun t => occursIn t.data q) then "dining"
  else "sofa"

/-- `WayfairRenderScraper._get_fallback_products(query, limit)`
(lines 294–309): resolve a category from the query, return the first
`limit` items of its list. -/
def getFallbackProducts (query : String) (limit : ℕ) : List Product :=
  (fallbackProductsFor (resolveCategory query)).take limit

/-- The data `_extract_product_data` (lines 198–277) pulls out of one
candidate HTML block; `none` models a block for which extraction raised
or found no name.  The HTML-parsing itself is outside the model: a page
is represented by the per-block extraction outcomes. -/
structure ExtractedData where
  id : String
  name : String
  price : Option ℚ
  url : String
  imageUrl : String
deriving DecidableEq, Repr

/-- The dict literal returned by `_extract_product_data` (lines 264–277):
`rating`/`review_count`/`original_price`/`discount_percentage` are always
`None`, `availability` is `"In Stock"`, `description` equals the name, and
the dict carries `"scraped": True`. -/
def mkScrapedProduct (e : ExtractedData) : Product :=
  { id := e.id, name := e.name, price := e.price, originalPrice := none,
    discountPercentage := none, rating := none, reviewCount := none,
    availability := "In Stock", url := e.url, imageUrl := e.imageUrl,
    description := e.name, scraped := true }

/-- Truthiness of `product.get('price')`: Python `None` and `0.0` are falsy. -/
def truthyOptRat : Option ℚ → Bool
  | none => false
  | some v => v ≠ 0

/-- The collection loop of `_scrape_wayfair` (lines 181–190): walk the
candidate blocks, keep products passing
`product and product.get('name') and product.get('price')`, and break as
soon as `len(products) >= limit` after an append.  `fuel` is the number of
further items still allowed (`limit` minus items collected so far). -/
def collectProducts : ℕ → List (Option ExtractedData) → List Product
  | _, [] => []
  | fuel, e :: es =>
    match e with
    | none => collectProducts fuel es
    | some d =>
      let p := mkScrapedProduct d
      if p.name ≠ "" ∧ truthyOptRat p.price then
        if fuel ≤ 1 then [p] else p :: collectProducts (fuel - 1) es
      else collectProducts fuel es

/-- `WayfairRenderScraper._scrape_wayfair` after a successful HTTP fetch
(lines 167–192): the winning selector's element list is truncated to
`limit` (`elements[:limit]`), then the collection loop runs; an empty
element list yields `[]`. -/
def scrapeWayfair (limit : ℕ) (elems : List (Option ExtractedData)) : List Product :=
  collectProducts limit (elems.take limit)

/-- Outcome of the live page fetch inside `_scrape_wayfair`: either the
HTTP request raised (transport error / bad status, lines 194–196), or a
page was fetched whose candidate blocks extracted to `elems`. -/
inductive FetchOutcome where
  | transportError : FetchOutcome
  | page (elems : List (Option ExtractedData)) : FetchOutcome
deriving DecidableEq, Repr

/-- `WayfairRenderScraper.search_products(query, limit)` (lines 125–141):
return scraped products when the scrape produced at least one item, and
`_get_fallback_products(query, limit)` when it raised or extracted none. -/
def scraperSearchProducts (outcome : FetchOutcome) (query : String) (limit : ℕ) :
    List Product :=
  match outcome with
  | .transportError => getFallbackProducts query limit
  | .page elems =>
    let scraped := scrapeWayfair limit elems
    if scraped = [] then getFallbackProducts query limit else scraped

/-- The `SearchRequest` pydantic model shared by the servers: optional
category / max-price / min-rating filters and a result limit
(default 10). -/
structure SearchRequest where
  query : String
  category : Option String := none
  maxPrice : Option ℚ := none
  minRating : Option ℚ := none
  limit : ℕ := 10
deriving DecidableEq, Repr

/-- Case-insensitive substring test
`request.category.lower() in p.get('name', '').lower()` used by the
category filter. -/
def categoryFilter (c : String) (ps : List Product) : List Product :=
  ps.filter (fun p => occursIn c.toLower.data p.name.toLower.data)

/-- `[p for p in products if p.get('price', 0) <= request.max_price]`.
A product whose `price` entry is Python `None` makes the comparison
`None <= float` raise `TypeError`. -/
def pyFilterPriceLE (m : ℚ) : List Product → Except PyError (List Product)
  | [] => .ok []
  | p :: ps =>
    match p.price with
    | none => .error .typeError
    | some v => (pyFilterPriceLE m ps).map (fun r => if v ≤ m then p :: r else r)

/-- `[p for p in products if p.get('rating', 0) >= request.min_rating]`,
raising `TypeError` on a `None` rating. -/
def pyFilterRatingGE (r : ℚ) : List Product → Except PyError (List Product)
  | [] => .ok []
  | p :: ps =>
    match p.rating with
    | none => .error .typeError
    | some v => (pyFilterRatingGE r ps).map (fun q => if r ≤ v then p :: q else q)

/-- The filter block shared verbatim by
`wayfair_render_optimized.py` (lines 328–335),
`wayfair_scraper_mcp.py` (lines 242–249) and
`wayfair_improved_scraper.py` (lines 233–240): each filter runs only when
its request field is truthy (`if request.category:` etc.), so `None`, the
empty string and `0.0` all disable a filter. -/
def applyFilters (req : SearchRequest) (products : List Product) :
    Except PyError (List Product) :=
  let ps1 :=
    match req.category with
    | some c => if c ≠ "" then categoryFilter c products else products
    | none => products
  let r2 :=
    match req.maxPrice with
    | some m => if m ≠ 0 then pyFilterPriceLE m ps1 else .ok ps1
    | none => .ok ps1
  match r2 with
  | .error e => .error e
  | .ok ps2 =>
    match req.minRating with
    | some r => if r ≠ 0 then pyFilterRatingGE r ps2 else .ok ps2
    | none => .ok ps2

/-- `WayfairMCPServer.search_products` of `wayfair_render_optimized.py`
(lines 320–358), restricted to the product list it returns: scrape (with
fallback), then apply the filters. -/
def serverSearchProducts (req : SearchRequest) (outcome : FetchOutcome) :
    Except PyError (List Product) :=
  applyFilters req (scraperSearchProducts outcome req.query req.limit)

/-- The result dict cached and returned by
`wayfair_scraper_mcp.py`'s `WayfairMCPServer.search_products`
(lines 252–262): the echoed query and filters, the filtered products and
the `scraped_at` stamp (modelled as a natural-number timestamp). -/
structure SearchResultEnv where
  query : String
  category : Option String
  maxPrice : Option ℚ
  minRating : Option ℚ
  totalResults : ℕ
  products : List Product
  scrapedAt : ℕ
deriving DecidableEq, Repr

/-- The cache key built at line 228 of `wayfair_scraper_mcp.py`:
`f"search_{request.query}_{request.category}_{request.max_price}_{request.limit}"`.
We model the key as the tuple of the four interpolated fields; note that
`request.min_rating` is not interpolated into the key. -/
structure CacheKey where
  query : String
  category : Option String
  maxPrice : Option ℚ
  limit : ℕ
deriving DecidableEq, Repr

/-- The key of a request, per line 228 of `wayfair_scraper_mcp.py`. -/
def cacheKey (req : SearchRequest) : CacheKey :=
  { query := req.query, category := req.category,
    maxPrice := req.maxPrice, limit := req.limit }

/-- The module-level dicts `product_cache` and `cache_timestamp` of
`wayfair_scraper_mcp.py` (lines 52–53), as association lists in which the
most recent binding for a key shadows older ones. -/
structure ServerState where
  productCache : List (CacheKey × SearchResultEnv)
  cacheTimestamp : List (CacheKey × ℕ)
deriving DecidableEq, Repr

/-- Dict lookup on the association-list model. -/
def alookup {α : Type} (k : CacheKey) : List (CacheKey × α) → Option α
  | [] => none
  | (k', v) :: rest => if k' = k then some v else alookup k rest

/-- The cache-miss path of `wayfair_scraper_mcp.py`'s
`search_products` (lines 237–267): run the live scrape (its product list
is the `live` parameter), apply the filters, build the result dict
stamped with the current time, store it in both dicts, and return it.
The boolean records that a live fetch was performed. -/
def mcpServerFresh (st : ServerState) (now : ℕ) (live : List Product)
    (req : SearchRequest) : Except PyError (SearchResultEnv × ServerState × Bool) :=
  match applyFilters req live with
  | .error e => .error e
  | .ok products =>
    let result : SearchResultEnv :=
      { query := req.query, category := req.category, maxPrice := req.maxPrice,
        minRating := req.minRating, totalResults := products.length,
        products := products, scrapedAt := now }
    .ok (result,
      { productCache := (cacheKey req, result) :: st.productCache,
        cacheTimestamp := (cacheKey req, now) :: st.cacheTimestamp },
      true)

/-- `WayfairMCPServer.search_products` of `wayfair_scraper_mcp.py`
(lines 226–267): on a cached, non-expired key
(`cache_age < self.cache_duration`, 300 seconds) return the cached result
without fetching; otherwise perform a fresh retrieval. -/
def mcpServerSearch (st : ServerState) (now : ℕ) (live : List Product)
    (req : SearchRequest) : Except PyError (SearchResultEnv × ServerState × Bool) :=
  match alookup (cacheKey req) st.productCache with
  | some cached =>
    let ts := (alookup (cacheKey req) st.cacheTimestamp).getD 0
    if now - ts < 300 then .ok (cached, st, false)
    else mcpServerFresh st now live req
  | none => mcpServerFresh st now live req

/-- A record of `PRODUCT_DATA['products']` as used by
`wayfair_mcp_server.py`: that file's items always carry a numeric
`price` and `rating` (its `ProductInfo` declares `price: float`,
`rating: float`).  Only the fields touched by `compare_products` are
modelled. -/
structure CatalogProduct where
  id : String
  name : String
  price : ℚ
  rating : ℚ
deriving DecidableEq, Repr

/-- `next((p for p in self.products if p['id'] == product_id), None)`
(line 133 of `wayfair_mcp_server.py`). -/
def findProduct (db : List CatalogProduct) (pid : String) : Option CatalogProduct :=
  db.find? (fun p => p.id == pid)

/-- The id-resolution loop of `compare_products` (lines 132–135): keep, in
input order, each id that resolves to a product. -/
def resolveIds (db : List CatalogProduct) (ids : List String) : List CatalogProduct :=
  ids.filterMap (findProduct db)

/-- Python's `min(l, key=k)` on a nonempty list `x :: l`: the running best
is replaced only on a strictly smaller key, so the first element
attaining the minimum wins. -/
def pyMinBy {α : Type} (key : α → ℚ) (x : α) : List α → α
  | [] => x
  | y :: ys => pyMinBy key (if key y < key x then y else x) ys

/-- Python's `max(l, key=k)` on a nonempty list `x :: l`: the running best
is replaced only on a strictly larger key, so the first element attaining
the maximum wins. -/
def pyMaxBy {α : Type} (key : α → ℚ) (x : α) : List α → α
  | [] => x
  | y :: ys => pyMaxBy key (if key x < key y then y else x) ys

/-- Python's `min` on a nonempty list of numbers, as a fold. -/
def pyListMin (x : ℚ) (xs : List ℚ) : ℚ := xs.foldl min x

/-- Python's `max` on a nonempty list of numbers, as a fold. -/
def pyListMax (x : ℚ) (xs : List ℚ) : ℚ := xs.foldl max x

/-- The summary dict built by `_generate_comparison_summary`
(lines 221–239 of `wayfair_mcp_server.py`). -/
structure ComparisonSummary where
  priceLowest : ℚ
  priceHighest : ℚ
  priceAverage : ℚ
  ratingLowest : ℚ
  ratingHighest : ℚ
  ratingAverage : ℚ
  bestValue : String
  highestRated : String
deriving DecidableEq, Repr

/-- `WayfairMCPServer._generate_comparison_summary(products)` on a
nonempty list `p :: ps`: price and rating ranges, plus
`best_value = min(products, key=lambda x: x['price'] / x['rating'])['id']`
and `highest_rated = max(products, key=lambda x: x['rating'])['id']`.
Evaluating the `best_value` key raises `ZeroDivisionError` when any
product's rating is `0`. -/
def generateComparisonSummary (p : CatalogProduct) (ps : List CatalogProduct) :
    Except PyError ComparisonSummary :=
  if (p :: ps).any (fun q => q.rating = 0) then .error .zeroDivisionError
  else
    .ok
      { priceLowest := pyListMin p.price (ps.map (·.price))
        priceHighest := pyListMax p.price (ps.map (·.price))
        priceAverage := ((p :: ps).map (·.price)).sum / ((p :: ps).length : ℚ)
        ratingLowest := pyListMin p.rating (ps.map (·.rating))
        ratingHighest := pyListMax p.rating (ps.map (·.rating))
        ratingAverage := ((p :: ps).map (·.rating)).sum / ((p :: ps).length : ℚ)
        bestValue := (pyMinBy (fun q => q.price / q.rating) p ps).id
        highestRated := (pyMaxBy (fun q => q.rating) p ps).id }

/-- `WayfairMCPServer.compare_products` (lines 128–145 of
`wayfair_mcp_server.py`): resolve the requested ids and raise
`HTTPException(404)` only when `products_to_compare` is empty; otherwise
return the resolved products together with their comparison summary. -/
def compareProducts (db : List CatalogProduct) (ids : List String) :
    Except PyError (List CatalogProduct × ComparisonSummary) :=
  match resolveIds db ids with
  | [] => .error .httpNotFound
  | p :: ps =>
    match generateComparisonSummary p ps with
    | .error e => .error e
    | .ok s => .ok (p :: ps, s)

/-- The currency-symbol class `[\$£€]` of the price regex. -/
def isCurrency (c : Char) : Bool :=
  c = '$' || c = '£' || c = '€'

/-- Numeric value of a digit string, as `float(...)` reads its integer
part. -/
def digitsVal (ds : List Char) : ℕ :=
  ds.foldl (fun n c => 10 * n + (c.toNat - 48)) 0

/-- Value of a two-digit decimal suffix `.d₁d₂`. -/
def decVal (d1 d2 : Char) : ℕ :=
  10 * (d1.toNat - 48) + (d2.toNat - 48)

/-- The optional decimal part `(?:\.\d{2})?` of the price regex: succeeds
exactly when the remaining text starts with `.` followed by two digits. -/
def decSuffix : List Char → Option (Char × Char)
  | '.' :: d1 :: d2 :: _ => if d1.isDigit && d2.isDigit then some (d1, d2) else none
  | _ => none

/-- The thousands-separator part `(?:,\d{3})*` of the price regex: greedily
consume groups of a comma followed by three digits, returning the digits
of the consumed groups and the remaining text.  (Backtracking cannot give
the regex a different match here: giving a group back leaves a comma in
front, on which neither `\.` nor the end of the pattern can do better.) -/
def commaGroups : List Char → List Char × List Char
  | ',' :: d1 :: d2 :: d3 :: rest =>
    if d1.isDigit && d2.isDigit && d3.isDigit then
      let gr := commaGroups rest
      (d1 :: d2 :: d3 :: gr.1, gr.2)
    else ([], ',' :: d1 :: d2 :: d3 :: rest)
  | cs => ([], cs)

/-- One attempt of the capture group `(\d+(?:,\d{3})*(?:\.\d{2})?)` at the
current position: a maximal nonempty digit run, then greedy separator
groups, then the optional two-digit decimal part; the group's value is
`float(group.replace(',', ''))`. -/
def numAt (cs : List Char) : Option ℚ :=
  let ds := cs.takeWhile (·.isDigit)
  if ds.isEmpty then none
  else
    let gr := commaGroups (cs.drop ds.length)
    match decSuffix gr.2 with
    | some (d1, d2) => some ((digitsVal (ds ++ gr.1) : ℚ) + (decVal d1 d2 : ℚ) / 100)
    | none => some ((digitsVal (ds ++ gr.1) : ℚ))

/-- `re.search(r'[\$£€]?(\d+(?:,\d{3})*(?:\.\d{2})?)', text)` followed by
`float` of the captured group: try a match at each position from the
left; at a position the optional currency symbol is consumed when
present, after which the capture group must match. -/
def regexSearch : List Char → Option ℚ
  | [] => none
  | c :: rest =>
    match (if isCurrency c then numAt rest else numAt (c :: rest)) with
    | some v => some v
    | none => regexSearch rest

/-- `WayfairRenderScraper._extract_price` of `wayfair_render_optimized.py`
(lines 283–292): `None` on empty text, else the regex is run on
`price_text.replace(',', '')` — every comma is deleted before matching. -/
def extractPriceRender (s : String) : Option ℚ :=
  if s = "" then none
  else regexSearch (s.data.filter (fun c => c ≠ ','))

/-- `WayfairImprovedScraper._extract_price` of
`wayfair_improved_scraper.py` (lines 196–206): the same regex run on the
raw text, commas being stripped from the captured group afterwards. -/
def extractPriceImproved (s : String) : Option ℚ :=
  regexSearch s.data

/-- Modelled from the spec's words for `parsePrice` (claim C5): the first
run matching an optional currency symbol followed by digits with optional
thousands separators and exactly two decimal digits — the same pattern
but with the two-digit decimal part required — located in the raw text,
separators stripped from the run. -/
def numAtSpec (cs : List Char) : Option ℚ :=
  let ds := cs.takeWhile (·.isDigit)
  if ds.isEmpty then none
  else
    let gr := commaGroups (cs.drop ds.length)
    match decSuffix gr.2 with
    | some (d1, d2) => some ((digitsVal (ds ++ gr.1) : ℚ) + (decVal d1 d2 : ℚ) / 100)
    | none => none

/-- Position-by-position search for the claim's pattern (see
`numAtSpec`). -/
def regexSearchSpec : List Char → Option ℚ
  | [] => none
  | c :: rest =>
    match (if isCurrency c then numAtSpec rest else numAtSpec (c :: rest)) with
    | some v => some v
    | none => regexSearchSpec rest

/-- The claim's reading of `parsePrice`: value of the first run in the
text matching an optional currency symbol, digits with optional
thousands separators, and exactly two decimal digits; `none` when no such
run exists. -/
def parsePriceSpec (s : String) : Option ℚ :=
  regexSearchSpec s.data

/-- Value of the maximal digit run at the head of `cs` together with an
optional two-digit decimal suffix; `none` when `cs` does not start with a
digit. -/
def digitRunValue (cs : List Char) : Option ℚ :=
  let ds := cs.takeWhile (·.isDigit)
  if ds.isEmpty then none
  else
    match decSuffix (cs.drop ds.length) with
    | some (d1, d2) => some ((digitsVal ds : ℚ) + (decVal d1 d2 : ℚ) / 100)
    | none => some ((digitsVal ds : ℚ))

/-- Declarative description of what `extractPriceRender` computes on the
comma-stripped text: the value of the digit run starting at the first
digit, `none` when there is no digit. -/
def firstDigitRunValue (cs : List Char) : Option ℚ :=
  digitRunValue (cs.dropWhile (fun c => !c.isDigit))

lemma fallbackProductsFor_scraped (c : String) :
    ∀ p ∈ fallbackProductsFor c, p.scraped = false := by
  intro p hp
  unfold fallbackProductsFor at hp
  split_ifs at hp <;>
    simp only [fallbackSofa, fallbackBed, fallbackDining,
      List.mem_cons, List.mem_singleton, List.not_mem_nil] at hp <;>
    rcases hp with rfl | rfl | hp <;> first | rfl | cases hp

lemma getFallbackProducts_scraped (query : String) (limit : ℕ) :
    ∀ p ∈ getFallbackProducts query limit, p.scraped = false := by
  intro p hp
  exact fallbackProductsFor_scraped _ p (List.take_subset _ _ hp)

lemma resolveCategory_default (query : String)
    (h : ∀ t ∈ ["sofa", "couch", "sectional", "bed", "bedroom", "mattress",
        "dining", "table", "chair"],
      occursIn t.data query.toLower.data = false) :
    resolveCategory query = "sofa" := by
  have h1 := h "sofa" (by simp)
  have h2 := h "couch" (by simp)
  have h3 := h "sectional" (by simp)
  have h4 := h "bed" (by simp)
  have h5 := h "bedroom" (by simp)
  have h6 := h "mattress" (by simp)
  have h7 := h "dining" (by simp)
  have h8 := h "table" (by simp)
  have h9 := h "chair" (by simp)
  simp [resolveCategory, h1, h2, h3, h4, h5, h6, h7, h8, h9]

/-- Claim C1: when the live fetch raises a transport error or extraction
yields zero items, `search_products` returns exactly the static fallback
catalog items (all with fallback provenance, `scraped = false`), and when
none of the category keywords occurs in the query text the result is the
first `limit` items of the default `sofa` list. -/
theorem fallback_on_failure (outcome : FetchOutcome) (query : String) (limit : ℕ)
    (hfail : outcome = .transportError ∨
      ∃ elems, outcome = .page elems ∧ scrapeWayfair limit elems = []) :
    scraperSearchProducts outcome query limit = getFallbackProducts query limit ∧
    (∀ p ∈ scraperSearchProducts outcome query limit, p.scraped = false) ∧
    ((∀ t ∈ ["sofa", "couch", "sectional", "bed", "bedroom", "mattress",
        "dining", "table", "chair"],
        occursIn t.data query.toLower.data = false) →
      scraperSearchProducts outcome query limit = fallbackSofa.take limit) := by
  have heq : scraperSearchProducts outcome query limit = getFallbackProducts query limit := by
    rcases hfail with rfl | ⟨elems, rfl, hempty⟩
    · rfl
    · simp [scraperSearchProducts, hempty]
  refine ⟨heq, ?_, ?_⟩
  · rw [heq]; exact getFallbackProducts_scraped query limit
  · intro h
    rw [heq]
    unfold getFallbackProducts
    rw [resolveCategory_default query h]
    rfl

/-- Witness for C1 at a concrete failing fetch and keyword-free query. -/
theorem fallback_on_failure_witness :
    scraperSearchProducts .transportError "office desk" 2 =
        getFallbackProducts "office desk" 2 ∧
    (∀ p ∈ scraperSearchProducts .transportError "office desk" 2, p.scraped = false) ∧
    ((∀ t ∈ ["sofa", "couch", "sectional", "bed", "bedroom", "mattress",
        "dining", "table", "chair"],
        occursIn t.data ("office desk" : String).toLower.data = false) →
      scraperSearchProducts .transportError "office desk" 2 = fallbackSofa.take 2) :=
  fallback_on_failure .transportError "office desk" 2 (Or.inl rfl)

lemma collectProducts_length :
    ∀ (l : List (Option ExtractedData)) (fuel : ℕ), 1 ≤ fuel →
      (collectProducts fuel l).length ≤ fuel := by
  intro l
  induction l with
  | nil => intro fuel _; simp [collectProducts]
  | cons e es ih =>
    intro fuel hfuel
    cases e with
    | none => simpa [collectProducts] using ih fuel hfuel
    | some d =>
      simp only [collectProducts]
      split
      · split
        · simpa using hfuel
        · rename_i hfuel2
          have := ih (fuel - 1) (by omega)
          simp only [List.length_cons]
          omega
      · exact ih fuel hfuel

/-- Claim C2: for `limit = L ≥ 1`, at most `L` items are returned, on the
live-extraction path, the fallback path, and by the extraction loop
itself (which stops once `L` valid items are collected). -/
theorem search_respects_limit (outcome : FetchOutcome) (query : String)
    (limit : ℕ) (hlim : 1 ≤ limit) :
    (scraperSearchProducts outcome query limit).length ≤ limit ∧
    (∀ elems, (scrapeWayfair limit elems).length ≤ limit) ∧
    (getFallbackProducts query limit).length ≤ limit := by
  have hscrape : ∀ elems, (scrapeWayfair limit elems).length ≤ limit := fun elems =>
    collectProducts_length _ limit hlim
  have hfb : (getFallbackProducts query limit).length ≤ limit :=
    List.length_take_le _ _
  refine ⟨?_, hscrape, hfb⟩
  cases outcome with
  | transportError => exact hfb
  | page elems =>
    by_cases hempty : scrapeWayfair limit elems = []
    · simpa [scraperSearchProducts, hempty] using hfb
    · simpa [scraperSearchProducts, hempty] using hscrape elems

/-- Witness for C2 at a concrete query and limit. -/
theorem search_respects_limit_witness :
    1 ≤ 1 ∧
    (scraperSearchProducts .transportError "sofa" 1).length ≤ 1 ∧
    (∀ elems, (scrapeWayfair 1 elems).length ≤ 1) ∧
    (getFallbackProducts "sofa" 1).length ≤ 1 :=
  ⟨by decide, search_respects_limit .transportError "sofa" 1 (by decide)⟩

lemma alookup_head {α : Type} (k : CacheKey) (v : α) (rest : List (CacheKey × α)) :
    alookup k ((k, v) :: rest) = some v := by
  simp [alookup]

/-- Claim C3: with the cache initially empty for the request's key, a
first call at `now1` creates a cache entry; a second identical call
within the 300-second TTL returns the identical cached result (same
`scrapedAt` stamp) without a live fetch and without touching the state,
while a second call at or after the TTL performs a fresh retrieval,
stamps the result with the new time, and overwrites the entry. -/
theorem cache_roundtrip (st : ServerState) (req : SearchRequest)
    (now1 now2 : ℕ) (live1 live2 : List Product)
    (r1 : SearchResultEnv) (st1 : ServerState) (f1 : Bool)
    (hmiss : alookup (cacheKey req) st.productCache = none)
    (hfirst : mcpServerSearch st now1 live1 req = .ok (r1, st1, f1)) :
    r1.scrapedAt = now1 ∧ f1 = true ∧
    (now2 - now1 < 300 →
      mcpServerSearch st1 now2 live2 req = .ok (r1, st1, false)) ∧
    (300 ≤ now2 - now1 →
      ∀ r2 st2 f2, mcpServerSearch st1 now2 live2 req = .ok (r2, st2, f2) →
        f2 = true ∧ r2.scrapedAt = now2 ∧ r2.scrapedAt ≠ r1.scrapedAt ∧
        alookup (cacheKey req) st2.productCache = some r2) := by
  rw [mcpServerSearch, hmiss, mcpServerFresh] at hfirst
  rcases happ : applyFilters req live1 with e | products
  · rw [happ] at hfirst; cases hfirst
  · rw [happ] at hfirst
    simp only [Except.ok.injEq, Prod.mk.injEq] at hfirst
    obtain ⟨hr, hst, hf⟩ := hfirst
    subst hr hst hf
    refine ⟨rfl, rfl, ?_, ?_⟩
    · intro httl
      simp only [mcpServerSearch, alookup_head, Option.getD_some]
      rw [if_pos httl]
    · intro httl r2 st2 f2 hsecond
      simp only [mcpServerSearch, alookup_head, Option.getD_some] at hsecond
      rw [if_neg (by omega : ¬ now2 - now1 < 300), mcpServerFresh] at hsecond
      rcases happ2 : applyFilters req live2 with e | products2
      · rw [happ2] at hsecond; cases hsecond
      · rw [happ2] at hsecond
        simp only [Except.ok.injEq, Prod.mk.injEq] at hsecond
        obtain ⟨hr2, hst2, hf2⟩ := hsecond
        subst hr2 hst2 hf2
        exact ⟨rfl, rfl, by simp; omega, alookup_head _ _ _⟩

/-- The empty module-level cache state. -/
def emptyState : ServerState := { productCache := [], cacheTimestamp := [] }

/-- A concrete search request used by the cache witnesses. -/
def demoReq : SearchRequest := { query := "sofa" }

/-- The result the first cache-miss call at time 100 with an empty live
scrape produces. -/
def demoResult1 : SearchResultEnv :=
  { query := "sofa", category := none, maxPrice := none, minRating := none,
    totalResults := 0, products := [], scrapedAt := 100 }

/-- The server state after that first call. -/
def demoState1 : ServerState :=
  { productCache := [(cacheKey demoReq, demoResult1)],
    cacheTimestamp := [(cacheKey demoReq, 100)] }

/-- Witness for C3 at a concrete state, request and pair of times. -/
theorem cache_roundtrip_witness :
    alookup (cacheKey demoReq) emptyState.productCache = none ∧
    mcpServerSearch emptyState 100 [] demoReq = .ok (demoResult1, demoState1, true) ∧
    (demoResult1.scrapedAt = 100 ∧ true = true ∧
      (200 - 100 < 300 →
        mcpServerSearch demoState1 200 [] demoReq = .ok (demoResult1, demoState1, false)) ∧
      (300 ≤ 200 - 100 →
        ∀ r2 st2 f2, mcpServerSearch demoState1 200 [] demoReq = .ok (r2, st2, f2) →
          f2 = true ∧ r2.scrapedAt = 200 ∧ r2.scrapedAt ≠ demoResult1.scrapedAt ∧
          alookup (cacheKey demoReq) st2.productCache = some r2)) :=
  ⟨rfl, by rfl,
    cache_roundtrip emptyState demoReq 100 200 [] [] demoResult1 demoState1 true rfl (by rfl)⟩

/-- Two requests identical except for `min_rating`. -/
def reqRating4 : SearchRequest := { query := "sofa", minRating := some 4 }

/-- The same request with `min_rating = 4.5`. -/
def reqRating45 : SearchRequest := { query := "sofa", minRating := some (9/2) }

/-- Counterexample to claim C4: the two requests differ only in
`minRating`, yet their cache keys coincide — the key built at line 228 of
`wayfair_scraper_mcp.py` does not include `min_rating`, so they share one
cache entry. -/
theorem cacheKey_minRating_cex :
    reqRating4 ≠ reqRating45 ∧
    reqRating4.minRating ≠ reqRating45.minRating ∧
    reqRating4.query = reqRating45.query ∧
    reqRating4.category = reqRating45.category ∧
    reqRating4.maxPrice = reqRating45.maxPrice ∧
    reqRating4.limit = reqRating45.limit ∧
    cacheKey reqRating4 = cacheKey reqRating45 := by
  refine ⟨?_, ?_, rfl, rfl, rfl, rfl, rfl⟩
  · intro h
    have h' := congrArg SearchRequest.minRating h
    norm_num [reqRating4, reqRating45] at h'
  · intro h
    norm_num [reqRating4, reqRating45] at h

/-- Claim C4 as amended: the cache key is a function of the four fields
`text`, `category`, `maxPrice` and `limit` only; `minRating` is omitted,
so two queries that differ only in `minRating` map to the same cache key
and cache entry. -/
theorem cacheKey_fields (r1 r2 : SearchRequest)
    (hq : r1.query = r2.query) (hc : r1.category = r2.category)
    (hp : r1.maxPrice = r2.maxPrice) (hl : r1.limit = r2.limit) :
    cacheKey r1 = cacheKey r2 := by
  simp [cacheKey, hq, hc, hp, hl]

/-- Witness for the amended C4 at the two concrete requests. -/
theorem cacheKey_fields_witness :
    reqRating4.query = reqRating45.query ∧
    reqRating4.category = reqRating45.category ∧
    reqRating4.maxPrice = reqRating45.maxPrice ∧
    reqRating4.limit = reqRating45.limit ∧
    cacheKey reqRating4 = cacheKey reqRating45 :=
  ⟨rfl, rfl, rfl, rfl, cacheKey_fields reqRating4 reqRating45 rfl rfl rfl rfl⟩

lemma pyFilterPriceLE_eq (m : ℚ) (ps : List Product) :
    pyFilterPriceLE m ps =
      if ps.all (fun p => p.price.isSome) then
        .ok (ps.filter (fun p => p.price.any (fun v => decide (v ≤ m))))
      else .error .typeError := by
  induction ps with
  | nil => simp [pyFilterPriceLE]
  | cons p ps ih =>
    cases hp : p.price with
    | none => simp [pyFilterPriceLE, hp]
    | some v =>
      by_cases hall : ps.all (fun p => p.price.isSome) = true
      · by_cases hv : v ≤ m <;>
          simp [pyFilterPriceLE, Except.map, hp, ih, hall, List.filter_cons, hv]
      · simp [pyFilterPriceLE, Except.map, hp, ih, hall]

lemma pyFilterRatingGE_eq (r : ℚ) (ps : List Product) :
    pyFilterRatingGE r ps =
      if ps.all (fun p => p.rating.isSome) then
        .ok (ps.filter (fun p => p.rating.any (fun v => decide (r ≤ v))))
      else .error .typeError := by
  induction ps with
  | nil => simp [pyFilterRatingGE]
  | cons p ps ih =>
    cases hp : p.rating with
    | none => simp [pyFilterRatingGE, hp]
    | some v =>
      by_cases hall : ps.all (fun p => p.rating.isSome) = true
      · by_cases hv : r ≤ v <;>
          simp [pyFilterRatingGE, Except.map, hp, ih, hall, List.filter_cons, hv]
      · simp [pyFilterRatingGE, Except.map, hp, ih, hall]

/-- A concrete extraction outcome: a scraped sofa with a price but, like
every product built by `_extract_product_data`, a `None` rating. -/
def demoExtracted : ExtractedData :=
  { id := "WF_0001", name := "Gray Fabric Sofa", price := some 250,
    url := "", imageUrl := "" }

/-- Claim C6 (code bug): the price and rating filters do keep exactly the
items satisfying the inclusive comparison when every item carries a
numeric value, but an item whose price or rating is `None` is not
excluded — the comparison `None <= float` / `None >= float` raises
`TypeError`.  In particular every live-scraped product of
`wayfair_render_optimized.py` has `rating = None`, so an active
`min_rating` filter over scraped items always raises. -/
theorem filters_raise_on_null (m r : ℚ) (ps : List Product) :
    (pyFilterPriceLE m ps =
      if ps.all (fun p => p.price.isSome) then
        .ok (ps.filter (fun p => p.price.any (fun v => decide (v ≤ m))))
      else .error .typeError) ∧
    (pyFilterRatingGE r ps =
      if ps.all (fun p => p.rating.isSome) then
        .ok (ps.filter (fun p => p.rating.any (fun v => decide (r ≤ v))))
      else .error .typeError) ∧
    (mkScrapedProduct demoExtracted).rating = none ∧
    pyFilterRatingGE 4 [mkScrapedProduct demoExtracted] = .error .typeError :=
  ⟨pyFilterPriceLE_eq m ps, pyFilterRatingGE_eq r ps, rfl, rfl⟩

/-- Claim C9: a filter whose request value is falsy in Python is disabled
entirely — `max_price = 0`, `min_rating = 0` and an empty-string category
behave exactly like an absent filter, and with all three filters absent
the item list is returned unchanged. -/
theorem zero_disables_filters (req : SearchRequest) (ps : List Product) :
    applyFilters { req with maxPrice := some 0 } ps =
      applyFilters { req with maxPrice := none } ps ∧
    applyFilters { req with minRating := some 0 } ps =
      applyFilters { req with minRating := none } ps ∧
    applyFilters { req with category := some "" } ps =
      applyFilters { req with category := none } ps ∧
    applyFilters { query := req.query, limit := req.limit } ps = .ok ps := by
  refine ⟨?_, ?_, ?_, ?_⟩
  · simp [applyFilters]
  · simp [applyFilters]
  · simp [applyFilters]
  · simp [applyFilters]

/-- A two-product catalog used to exercise `compare_products`. -/
def demoCatalog : List CatalogProduct :=
  [ { id := "WF001", name := "Modern Sofa", price := 900, rating := 5 },
    { id := "WF002", name := "Platform Bed", price := 300, rating := 4 } ]

/-- Counterexample to claim C7: a single resolving id (fewer than 2) does
not make `compare_products` fail — the code only raises its 404 when the
resolved list is empty, so a one-item comparison summary is produced. -/
theorem compare_single_item_cex :
    (resolveIds demoCatalog ["WF001"]).length = 1 ∧
    (compareProducts demoCatalog ["WF001"]).isOk = true := by
  constructor <;> rfl

/-- Claim C7 as amended: `compare_products` fails with its 404
`NotFoundError` exactly when none of the given ids resolves to a known
item; whenever at least one id resolves (and no resolved item has a zero
rating, which would instead raise `ZeroDivisionError`), a comparison
summary is produced — even for a single item. -/
theorem compare_notfound_iff (db : List CatalogProduct) (ids : List String) :
    (compareProducts db ids = .error .httpNotFound ↔ resolveIds db ids = []) ∧
    (resolveIds db ids ≠ [] → (∀ q ∈ resolveIds db ids, q.rating ≠ 0) →
      (compareProducts db ids).isOk = true) := by
  rcases hr : resolveIds db ids with _ | ⟨p, ps⟩
  · refine ⟨by simp [compareProducts, hr], by simp⟩
  · have hcmp : compareProducts db ids =
        match generateComparisonSummary p ps with
        | .error e => .error e
        | .ok s => .ok (p :: ps, s) := by
      rw [compareProducts, hr]
    constructor
    · rw [hcmp]
      rcases hg : generateComparisonSummary p ps with e | s
      · have he : e = .zeroDivisionError := by
          rw [generateComparisonSummary] at hg
          split at hg
          · exact (Except.error.injEq _ _).mp hg.symm ▸ rfl
          · cases hg
        subst he
        simp
      · simp
    · intro _ hz
      have hany : ((p :: ps).any fun q => decide (q.rating = 0)) = false := by
        rw [List.any_eq_false]
        intro q hq
        simpa using hz q (hr ▸ hq)
      rw [hcmp, generateComparisonSummary, hany]
      rfl

/-- Witness for the amended C7: one call with no resolving id fails with
the 404, one call with a resolving id succeeds. -/
theorem compare_notfound_iff_witness :
    (compareProducts demoCatalog ["nope"] = .error .httpNotFound ↔
      resolveIds demoCatalog ["nope"] = []) ∧
    (resolveIds demoCatalog ["nope"] ≠ [] →
      (∀ q ∈ resolveIds demoCatalog ["nope"], q.rating ≠ 0) →
      (compareProducts demoCatalog ["nope"]).isOk = true) :=
  compare_notfound_iff demoCatalog ["nope"]

lemma pyMinBy_spec {α : Type} (key : α → ℚ) :
    ∀ (l : List α) (x : α),
      ∃ pre post, x :: l = pre ++ pyMinBy key x l :: post ∧
        (∀ y ∈ x :: l, key (pyMinBy key x l) ≤ key y) ∧
        (∀ y ∈ pre, key (pyMinBy key x l) < key y) := by
  intro l
  induction l with
  | nil => exact fun x => ⟨[], [], rfl, by simp [pyMinBy], by simp⟩
  | cons y ys ih =>
    intro x
    by_cases hxy : key y < key x
    · have e : pyMinBy key x (y :: ys) = pyMinBy key y ys := by
        simp [pyMinBy, hxy]
      obtain ⟨pre, post, heq, hle, hlt⟩ := ih y
      have hmy : key (pyMinBy key y ys) ≤ key y := hle y (List.mem_cons_self y ys)
      refine ⟨x :: pre, post, ?_, ?_, ?_⟩
      · rw [e, List.cons_append, ← heq]
      · rw [e]; intro z hz
        rcases List.mem_cons.mp hz with rfl | hz'
        · exact hmy.trans hxy.le
        · exact hle z hz'
      · rw [e]; intro z hz
        rcases List.mem_cons.mp hz with rfl | hz'
        · exact lt_of_le_of_lt hmy hxy
        · exact hlt z hz'
    · have hxy' : key x ≤ key y := le_of_not_lt hxy
      have e : pyMinBy key x (y :: ys) = pyMinBy key x ys := by
        simp [pyMinBy, hxy]
      obtain ⟨pre, post, heq, hle, hlt⟩ := ih x
      cases pre with
      | nil =>
        rw [List.nil_append] at heq
        injection heq with h1 h2
        refine ⟨[], y :: ys, ?_, ?_, by simp⟩
        · rw [e, ← h1, List.nil_append]
        · rw [e, ← h1]; intro z hz
          rcases List.mem_cons.mp hz with rfl | hz'
          · exact le_refl _
          rcases List.mem_cons.mp hz' with rfl | hz''
          · exact hxy'
          · have := hle z (List.mem_cons_of_mem x hz'')
            rwa [← h1] at this
      | cons p0 pre' =>
        rw [List.cons_append] at heq
        injection heq with h1 h2
        subst h1
        have hmx : key (pyMinBy key x ys) < key x := hlt x (List.mem_cons_self _ _)
        refine ⟨x :: y :: pre', post, ?_, ?_, ?_⟩
        · rw [e]; simp only [List.cons_append]; rw [← h2]
        · rw [e]; intro z hz
          rcases List.mem_cons.mp hz with rfl | hz'
          · exact hmx.le
          rcases List.mem_cons.mp hz' with rfl | hz''
          · exact (hmx.trans_le hxy').le
          · exact hle z (List.mem_cons_of_mem x hz'')
        · rw [e]; intro z hz
          rcases List.mem_cons.mp hz with rfl | hz'
          · exact hmx
          rcases List.mem_cons.mp hz' with rfl | hz''
          · exact hmx.trans_le hxy'
          · exact hlt z (List.mem_cons_of_mem x hz'')

lemma pyMaxBy_spec {α : Type} (key : α → ℚ) :
    ∀ (l : List α) (x : α),
      ∃ pre post, x :: l = pre ++ pyMaxBy key x l :: post ∧
        (∀ y ∈ x :: l, key y ≤ key (pyMaxBy key x l)) ∧
        (∀ y ∈ pre, key y < key (pyMaxBy key x l)) := by
  intro l
  induction l with
  | nil => exact fun x => ⟨[], [], rfl, by simp [pyMaxBy], by simp⟩
  | cons y ys ih =>
    intro x
    by_cases hxy : key x < key y
    · have e : pyMaxBy key x (y :: ys) = pyMaxBy key y ys := by
        simp [pyMaxBy, hxy]
      obtain ⟨pre, post, heq, hle, hlt⟩ := ih y
      have hmy : key y ≤ key (pyMaxBy key y ys) := hle y (List.mem_cons_self y ys)
      refine ⟨x :: pre, post, ?_, ?_, ?_⟩
      · rw [e, List.cons_append, ← heq]
      · rw [e]; intro z hz
        rcases List.mem_cons.mp hz with rfl | hz'
        · exact hxy.le.trans hmy
        · exact hle z hz'
      · rw [e]; intro z hz
        rcases List.mem_cons.mp hz with rfl | hz'
        · exact lt_of_lt_of_le hxy hmy
        · exact hlt z hz'
    · have hxy' : key y ≤ key x := le_of_not_lt hxy
      have e : pyMaxBy key x (y :: ys) = pyMaxBy key x ys := by
        simp [pyMaxBy, hxy]
      obtain ⟨pre, post, heq, hle, hlt⟩ := ih x
      cases pre with
      | nil =>
        rw [List.nil_append] at heq
        injection heq with h1 h2
        refine ⟨[], y :: ys, ?_, ?_, by simp⟩
        · rw [e, ← h1, List.nil_append]
        · rw [e, ← h1]; intro z hz
          rcases List.mem_cons.mp hz with rfl | hz'
          · exact le_refl _
          rcases List.mem_cons.mp hz' with rfl | hz''
          · exact hxy'
          · have := hle z (List.mem_cons_of_mem x hz'')
            rwa [← h1] at this
      | cons p0 pre' =>
        rw [List.cons_append] at heq
        injection heq with h1 h2
        subst h1
        have hmx : key x < key (pyMaxBy key x ys) := hlt x (List.mem_cons_self _ _)
        refine ⟨x :: y :: pre', post, ?_, ?_, ?_⟩
        · rw [e]; simp only [List.cons_append]; rw [← h2]
        · rw [e]; intro z hz
          rcases List.mem_cons.mp hz with rfl | hz'
          · exact hmx.le
          rcases List.mem_cons.mp hz' with rfl | hz''
          · exact hxy'.trans hmx.le
          · exact hle z (List.mem_cons_of_mem x hz'')
        · rw [e]; intro z hz
          rcases List.mem_cons.mp hz with rfl | hz'
          · exact hmx
          rcases List.mem_cons.mp hz' with rfl | hz''
          · exact lt_of_le_of_lt hxy' hmx
          · exact hlt z (List.mem_cons_of_mem x hz'')

/-- The first item of the claim's comparison example:
price 899.99, rating 4.6. -/
def itemA : CatalogProduct :=
  { id := "itemA", name := "Item A", price := 89999/100, rating := 46/10 }

/-- The second item of the claim's comparison example:
price 299.99, rating 4.4. -/
def itemB : CatalogProduct :=
  { id := "itemB", name := "Item B", price := 29999/100, rating := 44/10 }

/-- Claim C8: over a nonempty list of items with strictly positive
ratings the summary is produced, its `best_value` is the id of the item
minimizing `price / rating` and `highest_rated` the id of the item
maximizing `rating`, ties broken by first occurrence (the running
optimum in `min`/`max` is replaced only on a strict improvement); on the
claim's example `bestValue = itemB` and `highestRated = itemA`. -/
theorem comparison_summary_best :
    (∀ (p : CatalogProduct) (ps : List CatalogProduct), (∀ q ∈ p :: ps, 0 < q.rating) →
      ∃ s, generateComparisonSummary p ps = .ok s ∧
        s.bestValue = (pyMinBy (fun q => q.price / q.rating) p ps).id ∧
        s.highestRated = (pyMaxBy (fun q => q.rating) p ps).id) ∧
    (∀ (p : CatalogProduct) (ps : List CatalogProduct),
      ∃ pre post,
        p :: ps = pre ++ pyMinBy (fun q => q.price / q.rating) p ps :: post ∧
        (∀ q ∈ p :: ps, (pyMinBy (fun q => q.price / q.rating) p ps).price /
          (pyMinBy (fun q => q.price / q.rating) p ps).rating ≤ q.price / q.rating) ∧
        (∀ q ∈ pre, (pyMinBy (fun q => q.price / q.rating) p ps).price /
          (pyMinBy (fun q => q.price / q.rating) p ps).rating < q.price / q.rating)) ∧
    (∀ (p : CatalogProduct) (ps : List CatalogProduct),
      ∃ pre post,
        p :: ps = pre ++ pyMaxBy (fun q => q.rating) p ps :: post ∧
        (∀ q ∈ p :: ps, q.rating ≤ (pyMaxBy (fun q => q.rating) p ps).rating) ∧
        (∀ q ∈ pre, q.rating < (pyMaxBy (fun q => q.rating) p ps).rating)) ∧
    (∃ s, generateComparisonSummary itemA [itemB] = .ok s ∧
      s.bestValue = "itemB" ∧ s.highestRated = "itemA") := by
  refine ⟨?_, ?_, ?_, ?_⟩
  · intro p ps hpos
    have hany : ((p :: ps).any fun q => decide (q.rating = 0)) = false := by
      rw [List.any_eq_false]
      intro q hq
      simpa using (hpos q hq).ne'
    rw [generateComparisonSummary, hany]
    exact ⟨_, rfl, rfl, rfl⟩
  · exact fun p ps => pyMinBy_spec (fun q => q.price / q.rating) ps p
  · exact fun p ps => pyMaxBy_spec (fun q => q.rating) ps p
  · have hany : ((itemA :: [itemB]).any fun q => decide (q.rating = 0)) = false := by
      norm_num [itemA, itemB]
    rw [generateComparisonSummary, hany]
    refine ⟨_, rfl, ?_, ?_⟩
    · show (pyMinBy (fun q => q.price / q.rating) itemA [itemB]).id = "itemB"
      have hlt : itemB.price / itemB.rating < itemA.price / itemA.rating := by
        norm_num [itemA, itemB]
      simp only [pyMinBy]
      rw [if_pos hlt]
      rfl
    · show (pyMaxBy (fun q => q.rating) itemA [itemB]).id = "itemA"
      have hlt : ¬ itemA.rating < itemB.rating := by
        norm_num [itemA, itemB]
      simp only [pyMaxBy]
      rw [if_neg hlt]
      rfl

/-- Witness for C8 at the claim's concrete pair of items. -/
theorem comparison_summary_best_witness :
    (∀ q ∈ itemA :: [itemB], 0 < q.rating) ∧
    (∃ s, generateComparisonSummary itemA [itemB] = .ok s ∧
      s.bestValue = (pyMinBy (fun q => q.price / q.rating) itemA [itemB]).id ∧
      s.highestRated = (pyMaxBy (fun q => q.rating) itemA [itemB]).id) := by
  have hpos : ∀ q ∈ itemA :: [itemB], 0 < q.rating := by
    intro q hq
    rcases List.mem_cons.mp hq with rfl | hq'
    · norm_num [itemA]
    rcases List.mem_cons.mp hq' with rfl | hq''
    · norm_num [itemB]
    · cases hq''
  exact ⟨hpos, comparison_summary_best.1 itemA [itemB] hpos⟩

lemma collectProducts_scraped :
    ∀ (l : List (Option ExtractedData)) (fuel : ℕ),
      ∀ p ∈ collectProducts fuel l, p.scraped = true := by
  intro l
  induction l with
  | nil => intro fuel p hp; simp [collectProducts] at hp
  | cons e es ih =>
    intro fuel p hp
    cases e with
    | none => exact ih fuel p (by simpa [collectProducts] using hp)
    | some d =>
      simp only [collectProducts] at hp
      split at hp
      · split at hp
        · rw [List.mem_singleton] at hp
          subst hp; rfl
        · rcases List.mem_cons.mp hp with rfl | hp'
          · rfl
          · exact ih (fuel - 1) p hp'
      · exact ih fuel p hp

lemma pyFilterPriceLE_ok_subset {m : ℚ} {ps out : List Product}
    (h : pyFilterPriceLE m ps = .ok out) : ∀ p ∈ out, p ∈ ps := by
  rw [pyFilterPriceLE_eq] at h
  split at h
  · injection h with h'
    subst h'
    exact fun p hp => List.mem_of_mem_filter hp
  · cases h

lemma pyFilterRatingGE_ok_subset {r : ℚ} {ps out : List Product}
    (h : pyFilterRatingGE r ps = .ok out) : ∀ p ∈ out, p ∈ ps := by
  rw [pyFilterRatingGE_eq] at h
  split at h
  · injection h with h'
    subst h'
    exact fun p hp => List.mem_of_mem_filter hp
  · cases h

lemma ratingStage_ok_subset (req : SearchRequest) (ps2 out : List Product)
    (h : (match req.minRating with
          | some r => if r ≠ 0 then pyFilterRatingGE r ps2 else .ok ps2
          | none => .ok ps2) = .ok out) : ∀ p ∈ out, p ∈ ps2 := by
  split at h
  · split at h
    · exact pyFilterRatingGE_ok_subset h
    · injection h with h'
      subst h'
      exact fun p hp => hp
  · injection h with h'
    subst h'
    exact fun p hp => hp

lemma priceStage_ok_subset (req : SearchRequest) (ps1 ps2 : List Product)
    (h : (match req.maxPrice with
          | some m => if m ≠ 0 then pyFilterPriceLE m ps1 else .ok ps1
          | none => .ok ps1) = .ok ps2) : ∀ p ∈ ps2, p ∈ ps1 := by
  split at h
  · split at h
    · exact pyFilterPriceLE_ok_subset h
    · injection h with h'
      subst h'
      exact fun p hp => hp
  · injection h with h'
    subst h'
    exact fun p hp => hp

lemma applyFilters_ok_subset (req : SearchRequest) (ps out : List Product)
    (h : applyFilters req ps = .ok out) : ∀ p ∈ out, p ∈ ps := by
  simp only [applyFilters] at h
  have hsub1 : ∀ p ∈ (match req.category with
      | some c => if c ≠ "" then categoryFilter c ps else ps
      | none => ps), p ∈ ps := by
    split
    · split
      · exact fun p hp => List.mem_of_mem_filter hp
      · exact fun p hp => hp
    · exact fun p hp => hp
  revert h
  generalize (match req.category with
      | some c => if c ≠ "" then categoryFilter c ps else ps
      | none => ps) = ps1 at hsub1 ⊢
  intro h
  rcases hmid : (match req.maxPrice with
      | some m => if m ≠ 0 then pyFilterPriceLE m ps1 else Except.ok ps1
      | none => Except.ok ps1) with e | ps2
  · rw [hmid] at h
    cases h
  · rw [hmid] at h
    replace h : (match req.minRating with
        | some r => if r ≠ 0 then pyFilterRatingGE r ps2 else Except.ok ps2
        | none => Except.ok ps2) = Except.ok out := h
    intro p hp
    exact hsub1 p (priceStage_ok_subset req ps1 ps2 hmid p
      (ratingStage_ok_subset req ps2 out h p hp))

/-- Claim C10: a returned item set is homogeneous in provenance (all
live-scraped or all fallback), and the live-versus-fallback decision is
made on the raw extraction result before the filters run: when
extraction yields at least one item, the server result is exactly the
filters applied to the scraped list, so its items are all live even when
filtering empties the list — it never switches to the fallback catalog
after filtering. -/
theorem provenance_homogeneous (req : SearchRequest) (outcome : FetchOutcome)
    (ps : List Product) (h : serverSearchProducts req outcome = .ok ps) :
    ((∀ p ∈ ps, p.scraped = true) ∨ (∀ p ∈ ps, p.scraped = false)) ∧
    (∀ elems, outcome = .page elems → scrapeWayfair req.limit elems ≠ [] →
      serverSearchProducts req outcome = applyFilters req (scrapeWayfair req.limit elems) ∧
      ∀ p ∈ ps, p.scraped = true) := by
  have hsub : ∀ p ∈ ps, p ∈ scraperSearchProducts outcome req.query req.limit :=
    applyFilters_ok_subset _ _ _ h
  constructor
  · cases outcome with
    | transportError =>
      right
      intro p hp
      exact getFallbackProducts_scraped _ _ p (hsub p hp)
    | page elems =>
      by_cases hempty : scrapeWayfair req.limit elems = []
      · right
        intro p hp
        have hmem := hsub p hp
        simp only [scraperSearchProducts, hempty, if_pos] at hmem
        exact getFallbackProducts_scraped _ _ p hmem
      · left
        intro p hp
        have hmem := hsub p hp
        simp only [scraperSearchProducts, if_neg hempty] at hmem
        exact collectProducts_scraped _ _ p hmem
  · rintro elems rfl hne
    have he : scraperSearchProducts (.page elems) req.query req.limit =
        scrapeWayfair req.limit elems := by
      simp [scraperSearchProducts, hne]
    refine ⟨?_, ?_⟩
    · rw [serverSearchProducts, he]
    · intro p hp
      have hmem := hsub p hp
      rw [he] at hmem
      exact collectProducts_scraped _ _ p hmem

/-- Witness for C10 at a page whose extraction yields one valid item. -/
theorem provenance_homogeneous_witness :
    serverSearchProducts demoReq (.page [some demoExtracted]) =
      .ok [mkScrapedProduct demoExtracted] ∧
    (((∀ p ∈ [mkScrapedProduct demoExtracted], p.scraped = true) ∨
      (∀ p ∈ [mkScrapedProduct demoExtracted], p.scraped = false)) ∧
     (∀ elems, (FetchOutcome.page [some demoExtracted]) = .page elems →
        scrapeWayfair demoReq.limit elems ≠ [] →
        serverSearchProducts demoReq (.page [some demoExtracted]) =
          applyFilters demoReq (scrapeWayfair demoReq.limit elems) ∧
        ∀ p ∈ [mkScrapedProduct demoExtracted], p.scraped = true)) :=
  ⟨rfl, provenance_homogeneous demoReq (.page [some demoExtracted]) _ rfl⟩

lemma commaGroups_no_comma (cs : List Char) (h : ∀ c ∈ cs, c ≠ ',') :
    commaGroups cs = ([], cs) := by
  rw [commaGroups.eq_def]
  split
  · rename_i d1 d2 d3 rest
    exact absurd rfl (h ',' (List.mem_cons_self _ _))
  · rfl

lemma numAt_no_comma (cs : List Char) (h : ∀ c ∈ cs, c ≠ ',') :
    numAt cs = digitRunValue cs := by
  have hdrop : ∀ c ∈ cs.drop (cs.takeWhile (·.isDigit)).length, c ≠ ',' :=
    fun c hc => h c (List.drop_subset _ _ hc)
  simp only [numAt, digitRunValue, commaGroups_no_comma _ hdrop, List.append_nil]

lemma isCurrency_of_isDigit {c : Char} (h : c.isDigit = true) :
    isCurrency c = false := by
  by_contra hcur
  rw [Bool.not_eq_false] at hcur
  have hc : (c = '$' ∨ c = '£') ∨ c = '€' := by simpa [isCurrency] using hcur
  rcases hc with (rfl | rfl) | rfl <;> exact absurd h (by decide)

lemma digitRunValue_isSome (cs : List Char)
    (hne : (cs.takeWhile (·.isDigit)).isEmpty = false) :
    ∃ v, digitRunValue cs = some v := by
  simp only [digitRunValue, hne, Bool.false_eq_true, if_false]
  rcases hdec : decSuffix (cs.drop (cs.takeWhile (·.isDigit)).length) with _ | ⟨d1, d2⟩ <;>
    rw [hdec] <;> exact ⟨_, rfl⟩

lemma dropWhile_head_false {α : Type} {p : α → Bool} :
    ∀ (l : List α) (d : α) (t : List α), l.dropWhile p = d :: t → p d = false := by
  intro l
  induction l with
  | nil => intro d t h; cases h
  | cons c cl ih =>
    intro d t h
    rw [List.dropWhile_cons] at h
    by_cases hpc : p c = true
    · rw [if_pos hpc] at h
      exact ih d t h
    · rw [if_neg hpc] at h
      injection h with h1 _
      subst h1
      simpa using hpc

lemma firstDigitRunValue_eq_none (cs : List Char) :
    firstDigitRunValue cs = none ↔ ∀ c ∈ cs, c.isDigit = false := by
  unfold firstDigitRunValue
  rcases hdw : cs.dropWhile (fun c => !c.isDigit) with _ | ⟨d, t⟩ <;> rw [hdw]
  · constructor
    · intro _ c hc
      have hall := List.dropWhile_eq_nil_iff.mp hdw
      simpa using hall c hc
    · intro _
      rfl
  · have hd : d.isDigit = true := by
      have := dropWhile_head_false cs d t hdw
      simpa using this
    obtain ⟨v, hv⟩ := digitRunValue_isSome (d :: t) (by simp [List.takeWhile_cons, hd])
    rw [hv]
    constructor
    · intro h
      cases h
    · intro hall
      have hdmem : d ∈ cs := (List.dropWhile_sublist _).subset (hdw ▸ List.mem_cons_self d t)
      exact absurd (hall d hdmem) (by simp [hd])

lemma regexSearch_no_comma :
    ∀ (cs : List Char), (∀ c ∈ cs, c ≠ ',') →
      regexSearch cs = firstDigitRunValue cs := by
  intro cs
  induction cs with
  | nil => intro _; rfl
  | cons c rest ih =>
    intro h
    have hrest : ∀ x ∈ rest, x ≠ ',' := fun x hx => h x (List.mem_cons_of_mem _ hx)
    have hrec : regexSearch rest = firstDigitRunValue rest := ih hrest
    by_cases hd : c.isDigit = true
    · have hcur : isCurrency c = false := isCurrency_of_isDigit hd
      have hnum : numAt (c :: rest) = digitRunValue (c :: rest) := numAt_no_comma _ h
      obtain ⟨v, hv⟩ := digitRunValue_isSome (c :: rest) (by simp [List.takeWhile_cons, hd])
      have hrhs : firstDigitRunValue (c :: rest) = digitRunValue (c :: rest) := by
        unfold firstDigitRunValue
        simp [List.dropWhile_cons, hd]
      simp [regexSearch, hcur, hnum, hv, hrhs]
    · have hrhs : firstDigitRunValue (c :: rest) = firstDigitRunValue rest := by
        unfold firstDigitRunValue
        simp [List.dropWhile_cons, hd]
      by_cases hcur : isCurrency c = true
      · have hnum : numAt rest = digitRunValue rest := numAt_no_comma _ hrest
        rcases hr0 : rest with _ | ⟨r, rest'⟩
        · subst hr0
          simp [regexSearch, hcur, numAt, firstDigitRunValue, digitRunValue,
            List.dropWhile_cons, hd]
        · subst hr0
          by_cases hrd : r.isDigit = true
          · obtain ⟨v, hv⟩ :=
              digitRunValue_isSome (r :: rest') (by simp [List.takeWhile_cons, hrd])
            have hrhs2 : firstDigitRunValue (r :: rest') = digitRunValue (r :: rest') := by
              unfold firstDigitRunValue
              simp [List.dropWhile_cons, hrd]
            simp [regexSearch, hcur, hnum, hv, hrhs, hrhs2]
          · have hnone : numAt (r :: rest') = none := by
              simp [numAt, List.takeWhile_cons, hrd]
            have hlhs : regexSearch (c :: r :: rest') = regexSearch (r :: rest') := by
              show (match (if isCurrency c = true then numAt (r :: rest')
                    else numAt (c :: r :: rest')) with
                | some v => some v
                | none => regexSearch (r :: rest')) = regexSearch (r :: rest')
              rw [if_pos hcur, hnone]
            rw [hlhs, hrec, hrhs]
      · have hcur' : isCurrency c = false := by simpa using hcur
        have hnone : numAt (c :: rest) = none := by
          simp [numAt, List.takeWhile_cons, hd]
        have hlhs : regexSearch (c :: rest) = regexSearch rest := by
          show (match (if isCurrency c = true then numAt rest
                else numAt (c :: rest)) with
            | some v => some v
            | none => regexSearch rest) = regexSearch rest
          rw [if_neg (by simp [hcur']), hnone]
        rw [hlhs, hrec, hrhs]

lemma extractPriceRender_eq (s : String) :
    extractPriceRender s = firstDigitRunValue (s.data.filter (fun c => c ≠ ',')) := by
  unfold extractPriceRender
  by_cases hs : s = ""
  · subst hs
    rfl
  · rw [if_neg hs]
    apply regexSearch_no_comma
    intro c hc
    simpa using (List.mem_filter.mp hc).2

/-- Counterexample to claim C5: on `"1,23"` there is no run of digits
with well-placed thousands separators and two decimal digits — the
pattern the claim describes finds nothing (`parsePriceSpec`), and even
reading the decimal part as optional its first run would be `"1"` (the
value `wayfair_improved_scraper.py` returns) — yet
`wayfair_render_optimized.py`'s `_extract_price` deletes the comma first
and returns `123`. -/
theorem parsePrice_comma_cex :
    extractPriceRender "1,23" = some 123 ∧
    extractPriceImproved "1,23" = some 1 ∧
    parsePriceSpec "1,23" = none := by
  refine ⟨?_, ?_, rfl⟩
  · have h : extractPriceRender "1,23" = some ((digitsVal ['1', '2', '3'] : ℕ) : ℚ) := rfl
    rw [h, show digitsVal ['1', '2', '3'] = 123 from rfl]
    norm_num
  · have h : extractPriceImproved "1,23" = some ((digitsVal ['1'] : ℕ) : ℚ) := rfl
    rw [h, show digitsVal ['1'] = 1 from rfl]
    norm_num

/-- Claim C5 as amended: `_extract_price` of
`wayfair_render_optimized.py` deletes every comma from the input and
then returns the value of the maximal digit run starting at the first
digit of the stripped text, together with an optional exactly-two-digit
decimal suffix (an optional `£`/`€`/`$` may precede the run); it returns
`None` exactly when the text contains no digit.  The claim's two
examples hold for this parser and for the
`wayfair_improved_scraper.py` variant, which matches the pattern on the
raw text instead. -/
theorem parsePrice_strips_commas :
    (∀ s : String, extractPriceRender s =
        firstDigitRunValue (s.data.filter (fun c => c ≠ ','))) ∧
    (∀ s : String, extractPriceRender s = none ↔ ∀ c ∈ s.data, c.isDigit = false) ∧
    extractPriceRender "$1,299.99" = some (129999/100) ∧
    extractPriceRender "no price here" = none ∧
    extractPriceImproved "$1,299.99" = some (129999/100) ∧
    extractPriceImproved "no price here" = none := by
  have hex : ∀ f : String → Option ℚ,
      f "$1,299.99" =
        some ((digitsVal ['1', '2', '9', '9'] : ℕ) + (decVal '9' '9' : ℕ) / 100 : ℚ) →
      f "$1,299.99" = some (129999/100) := by
    intro f hf
    rw [hf, show digitsVal ['1', '2', '9', '9'] = 1299 from rfl,
      show decVal '9' '9' = 99 from rfl]
    norm_num
  refine ⟨extractPriceRender_eq, ?_, hex _ rfl, rfl, hex _ rfl, rfl⟩
  intro s
  rw [extractPriceRender_eq, firstDigitRunValue_eq_none]
  constructor
  · intro h c hc
    by_cases hcomma : c = ','
    · subst hcomma
      decide
    · exact h c (List.mem_filter.mpr ⟨hc, by simpa using hcomma⟩)
  · intro h c hc
    exact h c (List.mem_filter.mp hc).1

end Wayfair
